import Mathlib

/-!
Verification development for the auto-cash reconciliation system.

The repository consists of a React frontend (present under `src/frontend`
and `src/unnamed`) and a Python backend whose reconciliation core
(PageGrouper, MatchScorer, ReconciliationOrchestrator) is described by the
specification but whose source is not in the repository snapshot; those
components are modelled from the specification, as marked on each
definition. Frontend JavaScript functions are embedded directly from the
`.jsx` sources. Amounts and scores are modelled as rationals (`ℚ`);
JavaScript falsy-string semantics (`null`/`undefined`/`""` are falsy) are
modelled explicitly where a source line uses `||` or truthiness tests.
-/

namespace AutoCash

/-- Truthiness of an optional JavaScript string: `null`/`undefined`
(`none`) and the empty string are falsy, any other string is truthy. -/
def jsTruthy : Option String → Bool
  | none => false
  | some s => s ≠ ""

/-- JavaScript `a || b` on two optional strings, as used by the frontend
fallback chains: yields `a` when truthy, otherwise `b`. -/
def jsOrOpt (a b : Option String) : Option String :=
  if jsTruthy a then a else b

/-- JavaScript `a || d` where `d` is a (truthy) default string. -/
def jsOrStr (a : Option String) (d : String) : String :=
  match a with
  | none => d
  | some s => if s = "" then d else s

/-- Score display tiers used by the two `getScoreColor` variants. -/
inductive ScoreTier where
  | high
  | medium
  | low
deriving DecidableEq, Repr

/-- Embedded from `src/unnamed/part_001` lines 74–78: the `getScoreColor`
variant with bands at 200 and 150. -/
def getScoreColorA (score : ℚ) : ScoreTier :=
  if score ≥ 200 then .high
  else if score ≥ 150 then .medium
  else .low

/-- Embedded from `src/frontend/src/components/InvoiceSuggestions.jsx`
lines 11–15: the `getScoreColor` variant with bands at 80 and 50. -/
def getScoreColorB (score : ℚ) : ScoreTier :=
  if score ≥ 80 then .high
  else if score ≥ 50 then .medium
  else .low

/-- Embedded from `src/frontend/src/components/OCRResults.jsx`: the subset
of an OCR extraction result that name resolution reads. -/
structure OcrNameFields where
  payor_name : Option String
  customer_name : Option String
deriving DecidableEq, Repr

/-- Embedded from `src/frontend/src/components/OCRResults.jsx` line 28:
the displayed payor/customer name is
`ocrResult.payor_name || ocrResult.customer_name` (JavaScript falsy
fallback); `none` models the `Not extracted` placeholder. -/
def resolvedName (r : OcrNameFields) : Option String :=
  jsOrOpt r.payor_name r.customer_name

/-- Name fields that can participate in a precedence list. -/
inductive NameField where
  | payor
  | customer
deriving DecidableEq, Repr

/-- Projection of a name field out of an extraction result. -/
def getNameField (r : OcrNameFields) : NameField → Option String
  | .payor => r.payor_name
  | .customer => r.customer_name

/-- Modelled from the spec: `Fallback-chain field resolution … is
represented as an explicit, ordered precedence list in configuration`.
Resolution walks the configured precedence list and returns the first
field that is present (`some`), regardless of emptiness. -/
def resolveByPrecedence (prec : List NameField) (r : OcrNameFields) :
    Option String :=
  match prec with
  | [] => none
  | f :: rest =>
    match getNameField r f with
    | some s => some s
    | none => resolveByPrecedence rest r

/-- Modelled from the spec: the default precedence prefers `payor_name`
over `customer_name`. -/
def defaultNamePrecedence : List NameField := [.payor, .customer]

/-- Modelled from the spec (§3): a per-page extraction record produced by
the external OCR collaborator; every optional field may be absent. -/
structure PageExtractionRecord where
  check_number : Option String
  amount : Option ℚ
  date : Option String
  payor_name : Option String
  customer_name : Option String
  invoice_numbers : List String
deriving DecidableEq, Repr

/-- Modelled from the spec (§3): the aggregated per-group payment record
produced by PageGrouper. -/
structure PaymentRecord where
  check_number : Option String
  amount : Option ℚ
  date : Option String
  payor_name : Option String
  customer_name : Option String
  invoice_numbers : List String
  source_pages : List ℕ
deriving DecidableEq, Repr

/-- Modelled from the spec (§3): an invoice candidate returned by the
external CandidateSource; fields other than the id may be absent. -/
structure InvoiceCandidate where
  invoice_id : String
  invoice_number : Option String
  customer_name : Option String
  amount : Option ℚ
deriving DecidableEq, Repr

/-- Modelled from the spec (§3): a scored match for one candidate. -/
structure MatchResult where
  invoice_id : String
  invoice_number : String
  match_score : ℚ
  match_reasons : List String
deriving DecidableEq, Repr

/-- Modelled from the spec (§4.2, §9): the scorer and orchestrator
thresholds and weights are an explicit configuration structure with the
spec's stated defaults. -/
structure ScorerConfig where
  invoiceWeight : ℚ := 100
  nameWeight : ℚ := 80
  amountWeight : ℚ := 100
  exactTol : ℚ := 1 / 1000
  bandTol : ℚ := 1 / 20
  epsilon : ℚ := 1 / 100
  nameVisibilityFloor : ℚ := 1 / 2
  minScore : ℚ := 100
  maxResults : ℕ := 20

/-- Default configuration of the scorer, per the spec's stated defaults. -/
def defaultScorerConfig : ScorerConfig := {}

/-- Invoice-number normalization for the exact-match component:
whitespace-trimmed, case-insensitive (spec §4.2 item 1). -/
def normInv (s : String) : String := s.trim.toLower

/-- Modelled from the spec (§4.2 item 1): invoice-number exact match
awards the full weight when the candidate's invoice number equals, after
normalization, any entry of the payment's invoice numbers; a missing
candidate invoice number or an empty payment list contributes zero. -/
def invoiceComponent (cfg : ScorerConfig) (p : PaymentRecord)
    (c : InvoiceCandidate) : ℚ :=
  match c.invoice_number with
  | none => 0
  | some n =>
    if p.invoice_numbers.any (fun m => normInv m = normInv n) then
      cfg.invoiceWeight
    else 0

/-- Name tokenization for the similarity ratio: case-folded,
punctuation-insensitive (non-alphanumeric characters become separators),
split into whitespace-delimited tokens. -/
def nameTokens (s : String) : List String :=
  ((s.toLower.map fun ch => if ch.isAlphanum then ch else ' ').splitOn
    " ").filter (· ≠ "")

/-- Size of the intersection of the two deduplicated token sets. -/
def interCount (a b : String) : ℕ :=
  ((nameTokens a).dedup.filter (· ∈ (nameTokens b).dedup)).length

/-- Size of the union of the two deduplicated token sets. -/
def unionCount (a b : String) : ℕ :=
  (nameTokens a).dedup.length +
    ((nameTokens b).dedup.filter (· ∉ (nameTokens a).dedup)).length

/-- Modelled from the spec (§4.2 item 2): a normalized similarity ratio in
[0,1] between two names, computed as the Jaccard ratio of their deduplicated
token sets. -/
def similarityRatio (a b : String) : ℚ :=
  (interCount a b : ℚ) / max (unionCount a b : ℚ) 1

/-- Payment-side resolved customer/payor name: first present of
`payor_name`, `customer_name` (spec §4.2 item 2). -/
def paymentName (p : PaymentRecord) : Option String :=
  match p.payor_name with
  | some s => some s
  | none => p.customer_name

/-- Modelled from the spec (§4.2 item 2): customer-name similarity
component, the ratio times the weight; a missing name on either side
contributes zero. -/
def nameComponent (cfg : ScorerConfig) (p : PaymentRecord)
    (c : InvoiceCandidate) : ℚ :=
  match paymentName p, c.customer_name with
  | some a, some b => cfg.nameWeight * similarityRatio a b
  | _, _ => 0

/-- Relative amount difference
`d = |payment.amount - candidate.amount| / max(candidate.amount, epsilon)`
(spec §4.2 item 3). -/
def relDiff (cfg : ScorerConfig) (pa ca : ℚ) : ℚ :=
  |pa - ca| / max ca cfg.epsilon

/-- Modelled from the spec (§4.2 item 3): amount score on two present
amounts — full weight within the exact tolerance, linearly scaled and
clamped inside the wider band, zero beyond it. -/
def amountScore (cfg : ScorerConfig) (pa ca : ℚ) : ℚ :=
  if relDiff cfg pa ca ≤ cfg.exactTol then cfg.amountWeight
  else if relDiff cfg pa ca ≤ cfg.bandTol then
    max 0 (min cfg.amountWeight
      (cfg.amountWeight *
        (1 - (relDiff cfg pa ca - cfg.exactTol) /
          (cfg.bandTol - cfg.exactTol))))
  else 0

/-- Modelled from the spec (§4.2 item 3): amount component of the match
score; a missing amount on either side contributes zero. -/
def amountComponent (cfg : ScorerConfig) (p : PaymentRecord)
    (c : InvoiceCandidate) : ℚ :=
  match p.amount, c.amount with
  | some pa, some ca => amountScore cfg pa ca
  | _, _ => 0

/-- Modelled from the spec (§4.2): the total match score is the sum of the
three independently computed component scores. -/
def totalScore (cfg : ScorerConfig) (p : PaymentRecord)
    (c : InvoiceCandidate) : ℚ :=
  invoiceComponent cfg p c + nameComponent cfg p c + amountComponent cfg p c

/-- Modelled from the spec (§4.2): human-readable reasons, one per
contributing factor above its visibility threshold. -/
def matchReasons (cfg : ScorerConfig) (p : PaymentRecord)
    (c : InvoiceCandidate) : List String :=
  (if 0 < invoiceComponent cfg p c then
    ["Invoice number match: " ++ (c.invoice_number.getD "")] else []) ++
  (if cfg.nameWeight * cfg.nameVisibilityFloor < nameComponent cfg p c then
    ["Customer name match: " ++ (c.customer_name.getD "")] else []) ++
  (if 0 < amountComponent cfg p c then ["Amount match"] else [])

/-- Modelled from the spec (§4.2): score one candidate against one
payment record, producing an immutable MatchResult. -/
def scoreCandidate (cfg : ScorerConfig) (p : PaymentRecord)
    (c : InvoiceCandidate) : MatchResult :=
  { invoice_id := c.invoice_id
    invoice_number := c.invoice_number.getD ""
    match_score := totalScore cfg p c
    match_reasons := matchReasons cfg p c }

/-- Modelled from the spec (§4.3): deduplicate candidates by
`invoice_id`, keeping the first occurrence. -/
def dedupById (cs : List InvoiceCandidate) : List InvoiceCandidate :=
  cs.foldl
    (fun acc c =>
      if acc.any (fun c2 => c2.invoice_id = c.invoice_id) then acc
      else acc ++ [c])
    []

/-- Ranking order of the orchestrator: descending by score, ties broken
by ascending invoice number (spec §4.3). -/
def rankLE (a b : MatchResult) : Bool :=
  decide (b.match_score < a.match_score ∨
    (a.match_score = b.match_score ∧ a.invoice_number ≤ b.invoice_number))

/-- Modelled from the spec (§4.3): discard results at or below the
minimum score threshold, sort descending by score with deterministic tie
break, truncate to the maximum result count. -/
def rankMatches (cfg : ScorerConfig) (rs : List MatchResult) :
    List MatchResult :=
  ((rs.filter fun r => cfg.minScore < r.match_score).mergeSort
    rankLE).take cfg.maxResults

/-- Modelled from the spec (§4.3): the per-PaymentRecord orchestrator
pipeline over an already-retrieved candidate list — deduplicate, score
every candidate, filter, rank, truncate. -/
def reconcile (cfg : ScorerConfig) (p : PaymentRecord)
    (candidates : List InvoiceCandidate) : List MatchResult :=
  rankMatches cfg ((dedupById candidates).map (scoreCandidate cfg p))

/-- Group accumulator with no pages yet (spec §4.1). -/
def emptyGroup : PaymentRecord :=
  { check_number := none, amount := none, date := none, payor_name := none
    customer_name := none, invoice_numbers := [], source_pages := [] }

/-- First non-absent value of two optional fields (spec §4.1 merge
policy, left-to-right). -/
def firstSome {α : Type} : Option α → Option α → Option α
  | some x, _ => some x
  | none, b => b

/-- Deduplicated union in first-seen order (spec §4.1 merge policy for
`invoice_numbers`). -/
def dedupUnion (xs ys : List String) : List String :=
  ys.foldl (fun acc y => if y ∈ acc then acc else acc ++ [y]) xs

/-- Modelled from the spec (§4.1): merge one continuation page at index
`idx` into the current group — first non-absent wins per optional field,
invoice numbers accumulate as a deduplicated union, and the page index is
appended to `source_pages`. -/
def mergePage (g : PaymentRecord) (p : PageExtractionRecord) (idx : ℕ) :
    PaymentRecord :=
  { check_number := firstSome g.check_number p.check_number
    amount := firstSome g.amount p.amount
    date := firstSome g.date p.date
    payor_name := firstSome g.payor_name p.payor_name
    customer_name := firstSome g.customer_name p.customer_name
    invoice_numbers := dedupUnion g.invoice_numbers p.invoice_numbers
    source_pages := g.source_pages ++ [idx] }

/-- Start a fresh group anchored on the page at index `idx` (spec §4.1). -/
def newGroup (p : PageExtractionRecord) (idx : ℕ) : PaymentRecord :=
  mergePage emptyGroup p idx

/-- Modelled from the spec (§4.1): the PageGrouper walk. A page whose
non-absent check number differs (exact, case-sensitive string equality)
from the group's resolved check number closes the current group and
anchors a new one; a page with the same or no check number is a
continuation page. Page indices are the 0-based positions in the source
document. -/
def groupGo : PaymentRecord → ℕ → List PageExtractionRecord →
    List PaymentRecord
  | g, _, [] => [g]
  | g, i, p :: ps =>
    match g.check_number, p.check_number with
    | some c', some c =>
      if c' = c then groupGo (mergePage g p i) (i + 1) ps
      else g :: groupGo (newGroup p i) (i + 1) ps
    | _, _ => groupGo (mergePage g p i) (i + 1) ps

/-- Modelled from the spec (§4.1): PageGrouper seeds the accumulator with
the first page and walks the rest; an empty document yields no groups. -/
def groupPages : List PageExtractionRecord → List PaymentRecord
  | [] => []
  | p :: ps => groupGo (newGroup p 0) 1 ps

/-- Minimal OCR result as read by the App component (only
`check_number` is consulted by the embedded handlers). -/
structure OcrResult where
  check_number : Option String
deriving DecidableEq, Repr

/-- Shape of one `check_groups` entry of the PDF upload response, as read
by `handlePdfUpload` in `src/frontend/src/App.jsx`. -/
structure CheckGroup where
  check_number : Option String
  ocr_result : OcrResult
  matches' : List MatchResult
  pages : List ℕ
deriving DecidableEq, Repr

/-- Shape of one processed batch-result item built by `handlePdfUpload`
(`src/frontend/src/App.jsx` lines 50–62). -/
structure BatchResultItem where
  id : String
  checkNumber : String
  ocrResult : OcrResult
  matches' : List MatchResult
  pages : List ℕ
  filename : String
deriving DecidableEq, Repr

/-- Embedded from `src/frontend/src/App.jsx` lines 50–62: the processed
item for the group at 0-based position `i`; the JavaScript falsy
fallbacks `group.check_number || node` produce the id and the ordinal
label. -/
def mkBatchItem (filename : String) (i : ℕ) (g : CheckGroup) :
    BatchResultItem :=
  { id := jsOrStr g.check_number ("check-" ++ toString i)
    checkNumber := jsOrStr g.check_number ("Check " ++ toString (i + 1))
    ocrResult := g.ocr_result
    matches' := g.matches'
    pages := g.pages
    filename := filename }

/-- Walk of `handlePdfUpload`'s map over the check groups, carrying the
0-based position. -/
def processPdfGroupsGo (filename : String) :
    ℕ → List CheckGroup → List BatchResultItem
  | _, [] => []
  | i, g :: gs => mkBatchItem filename i g :: processPdfGroupsGo filename (i + 1) gs

/-- Embedded from `src/frontend/src/App.jsx` (`handlePdfUpload`): map the
response's check groups to displayed batch results. -/
def processPdfGroups (groups : List CheckGroup) (filename : String) :
    List BatchResultItem :=
  processPdfGroupsGo filename 0 groups

/-- Embedded from `src/frontend/src/App.jsx` lines 228–232: the batch
result header renders from the extracted `ocrResult.check_number`, not
from the fallback label, so an extracted number and an ordinal fallback
are distinguishable downstream. -/
def renderBatchHeader (r : BatchResultItem) : String :=
  if jsTruthy r.ocrResult.check_number then
    "Check #" ++ r.checkNumber ++ " - " ++ r.filename
  else "Check: " ++ r.filename

/-- Entry of the selected-invoices list handled by `handleSelectInvoice`
in `src/frontend/src/App.jsx`; `checkNumber` is attached only for batch
results. -/
structure SelectedInvoice where
  invoice_id : String
  invoice_number : String
  checkNumber : Option String
deriving DecidableEq, Repr

/-- Embedded from `src/frontend/src/App.jsx` lines 120–122: the selection
key is `invoice_id` alone, or `invoice_id ++ "_" ++ checkNumber` when the
check number is truthy. -/
def selKey (inv : SelectedInvoice) : String :=
  if jsTruthy inv.checkNumber then
    inv.invoice_id ++ "_" ++ inv.checkNumber.getD ""
  else inv.invoice_id

/-- Embedded from `src/frontend/src/App.jsx` lines 117–144
(`handleSelectInvoice`): remove the invoice when its key is already
selected, otherwise append it. -/
def handleSelectInvoice (inv : SelectedInvoice)
    (prev : List SelectedInvoice) : List SelectedInvoice :=
  if prev.any (fun e => selKey e = selKey inv) then
    prev.filter (fun e => selKey e ≠ selKey inv)
  else prev ++ [inv]

/-- State of the batch-capable App variant
(`src/frontend/src/App.jsx` lines 9–16). -/
structure BatchAppState where
  loading : Bool
  ocrResult : Option OcrResult
  matches' : List MatchResult
  selectedInvoices : List SelectedInvoice
  error : Option String
  processingTime : Option ℚ
  batchResults : List BatchResultItem
deriving DecidableEq, Repr

/-- State of the single-selection App variant
(`src/frontend/src/App.jsx` lines 272–278). -/
structure SingleAppState where
  loading : Bool
  ocrResult : Option OcrResult
  matches' : List MatchResult
  selectedInvoice : Option SelectedInvoice
  error : Option String
  processingTime : Option ℚ
deriving DecidableEq, Repr

/-- Embedded from `src/frontend/src/App.jsx` lines 74–88 (synchronous
prefix of `handleBatchUpload`): a null or empty file list sets the error
and returns before any request; otherwise the handler clears prior state
and issues the upload (the returned flag records whether `uploadBatch`
was called). -/
def handleBatchUpload (files : Option (List String))
    (s : BatchAppState) : BatchAppState × Bool :=
  match files with
  | none => ({ s with error := some "Please upload at least one file" }, false)
  | some [] =>
    ({ s with error := some "Please upload at least one file" }, false)
  | some (_ :: _) =>
    ({ s with
        loading := true
        error := none
        ocrResult := none
        matches' := []
        selectedInvoices := []
        batchResults := [] }, true)

/-- Embedded from `src/frontend/src/App.jsx` lines 320–333 (synchronous
prefix of `handleBothUpload`): with neither file provided it sets the
error and returns before any request; otherwise it clears prior state and
issues the upload (the returned flag records whether `uploadBoth` was
called). -/
def handleBothUpload (checkFile remittanceFile : Option String)
    (s : SingleAppState) : SingleAppState × Bool :=
  match checkFile, remittanceFile with
  | none, none =>
    ({ s with error := some "Please upload at least one file" }, false)
  | _, _ =>
    ({ s with
        loading := true
        error := none
        ocrResult := none
        matches' := []
        selectedInvoice := none }, true)

/-- Concrete page with only a check number, used as test input. -/
def pageWith (c : Option String) : PageExtractionRecord :=
  { check_number := c, amount := none, date := none, payor_name := none
    customer_name := none, invoice_numbers := [] }

/-- Concrete payment record used to instantiate scorer theorems. -/
def paymentW : PaymentRecord :=
  { check_number := none, amount := some 100, date := none
    payor_name := none, customer_name := none
    invoice_numbers := ["A"], source_pages := [0] }

/-- Concrete invoice candidate used to instantiate scorer theorems. -/
def candidateW : InvoiceCandidate :=
  { invoice_id := "1", invoice_number := some "A"
    customer_name := none, amount := some 100 }

/-- Concrete candidate with no fields beyond its id, used to instantiate
the missing-field clauses. -/
def candidateEmptyW : InvoiceCandidate :=
  { invoice_id := "2", invoice_number := none
    customer_name := none, amount := none }

/-- Concrete selected invoice used in selection-toggle statements. -/
def selA : SelectedInvoice :=
  { invoice_id := "1", invoice_number := "INV-1", checkNumber := none }

/-- Second concrete selected invoice, with a key distinct from `selA`. -/
def selB : SelectedInvoice :=
  { invoice_id := "2", invoice_number := "INV-2", checkNumber := none }

/-- Concrete extraction result carrying a present-but-empty payor name
next to a customer name. -/
def ocrEmptyPayor : OcrNameFields :=
  { payor_name := some "", customer_name := some "Acme" }

/-- Concrete extraction result carrying both name fields non-empty. -/
def ocrBothNames : OcrNameFields :=
  { payor_name := some "Bob", customer_name := some "Acme" }

/-- Concrete check group with no extracted check number. -/
def groupNoCheck : CheckGroup :=
  { check_number := none, ocr_result := { check_number := none }
    matches' := [], pages := [0, 1] }

/-- Theorem C8 counterexample: the two `getScoreColor` variants disagree
at score 80 — the part_001 variant returns the low tier while the
InvoiceSuggestions.jsx variant returns the high tier, so they are not
extensionally equal. -/
theorem getScoreColor_variants_disagree :
    getScoreColorA 80 = ScoreTier.low ∧ getScoreColorB 80 = ScoreTier.high ∧
    getScoreColorA 80 ≠ getScoreColorB 80 := by
  refine ⟨by norm_num [getScoreColorA], by norm_num [getScoreColorB], ?_⟩
  norm_num [getScoreColorA, getScoreColorB]
  simp

/-- Claim C8 (corrected): the two `getScoreColor` variants are not
extensionally equal; the part_001 variant uses graded display bands at
200 and 150 while the InvoiceSuggestions.jsx variant uses 80 and 50, and
they assign the same tier exactly for scores below 50 or at or above
200. -/
theorem getScoreColor_agreement (s : ℚ) :
    getScoreColorA s = getScoreColorB s ↔ s < 50 ∨ 200 ≤ s := by
  unfold getScoreColorA getScoreColorB
  split_ifs with h1 h2 h3 h4 h5 h6 h7 <;>
    constructor <;> intro h <;>
      first
        | rfl
        | (left; linarith)
        | (right; linarith)
        | (exfalso; rcases h with h | h <;> linarith)

/-- Claim C10 (confirmed): called with a null or empty file list (or with
neither file), the upload handlers set the error message and return with
no request issued; every other piece of state — results, matches,
selections, batch results, processing time — is left unchanged. -/
theorem upload_guard_no_files (s : BatchAppState) (s2 : SingleAppState) :
    handleBatchUpload none s =
      ({ s with error := some "Please upload at least one file" }, false) ∧
    handleBatchUpload (some []) s =
      ({ s with error := some "Please upload at least one file" }, false) ∧
    handleBothUpload none none s2 =
      ({ s2 with error := some "Please upload at least one file" }, false) ∧
    (handleBatchUpload none s).1.matches' = s.matches' ∧
    (handleBatchUpload none s).1.ocrResult = s.ocrResult ∧
    (handleBatchUpload none s).1.selectedInvoices = s.selectedInvoices ∧
    (handleBatchUpload none s).1.batchResults = s.batchResults ∧
    (handleBothUpload none none s2).1.matches' = s2.matches' ∧
    (handleBothUpload none none s2).1.selectedInvoice = s2.selectedInvoice :=
  ⟨rfl, rfl, rfl, rfl, rfl, rfl, rfl, rfl, rfl⟩

/-- Claim C4 (confirmed): the five-page sequence with check numbers
A, none, B, none, A yields exactly three groups whose source pages are
[0,1], [2,3] and [4], the reappearing check number A starting a fresh
group rather than merging with the first. -/
theorem pageGrouper_boundary_rule :
    (groupPages [pageWith (some "A"), pageWith none, pageWith (some "B"),
        pageWith none, pageWith (some "A")]).map PaymentRecord.source_pages =
      [[0, 1], [2, 3], [4]] ∧
    (groupPages [pageWith (some "A"), pageWith none, pageWith (some "B"),
        pageWith none, pageWith (some "A")]).length = 3 ∧
    (groupPages [pageWith (some "A"), pageWith none, pageWith (some "B"),
        pageWith none, pageWith (some "A")]).map PaymentRecord.check_number =
      [some "A", some "B", some "A"] := by
  refine ⟨?_, ?_, ?_⟩ <;> rfl

/-- Lookup into the processed PDF batch results: the item at position `i`
of the walk started at `k` is built from the group at position `i` with
ordinal `k + i`. -/
theorem processPdfGroupsGo_getElem? (filename : String) :
    ∀ (gs : List CheckGroup) (k i : ℕ),
      (processPdfGroupsGo filename k gs)[i]? =
        gs[i]?.map fun g => mkBatchItem filename (k + i) g
  | [], _, i => by simp [processPdfGroupsGo]
  | g :: gs, k, 0 => by simp [processPdfGroupsGo]
  | g :: gs, k, i + 1 => by
    have h := processPdfGroupsGo_getElem? filename gs (k + 1) i
    simp only [processPdfGroupsGo, List.getElem?_cons_succ, h]
    have : k + 1 + i = k + (i + 1) := by omega
    rw [this]

/-- Claim C6 (confirmed): a PDF check group whose `check_number` is
absent is labeled by `handlePdfUpload` with its 1-based ordinal position
(`Check N` for the N-th group), the extracted OCR result is carried along
unchanged, and the batch header renders from the extracted check number
rather than the fallback label, so an ordinal fallback stays
distinguishable from an extracted number. -/
theorem pdf_group_ordinal_label (groups : List CheckGroup)
    (filename : String) (i : ℕ) (g : CheckGroup)
    (hg : groups[i]? = some g) (hnone : g.check_number = none) :
    (processPdfGroups groups filename)[i]? =
      some (mkBatchItem filename i g) ∧
    (mkBatchItem filename i g).checkNumber =
      "Check " ++ toString (i + 1) ∧
    (mkBatchItem filename i g).ocrResult = g.ocr_result ∧
    (g.ocr_result.check_number = none →
      renderBatchHeader (mkBatchItem filename i g) =
        "Check: " ++ filename) := by
  refine ⟨?_, ?_, rfl, ?_⟩
  · unfold processPdfGroups
    rw [processPdfGroupsGo_getElem?]
    simp [hg]
  · simp [mkBatchItem, hnone, jsOrStr]
  · intro h
    simp [renderBatchHeader, mkBatchItem, h, jsTruthy]

/-- Witness for the ordinal-label theorem at a concrete one-group
response with no extracted check number. -/
theorem pdf_group_ordinal_label_witness :
    (processPdfGroups [groupNoCheck] "lockbox.pdf")[0]? =
      some (mkBatchItem "lockbox.pdf" 0 groupNoCheck) ∧
    (mkBatchItem "lockbox.pdf" 0 groupNoCheck).checkNumber =
      "Check " ++ toString (0 + 1) ∧
    (mkBatchItem "lockbox.pdf" 0 groupNoCheck).ocrResult =
      groupNoCheck.ocr_result ∧
    renderBatchHeader (mkBatchItem "lockbox.pdf" 0 groupNoCheck) =
      "Check: " ++ "lockbox.pdf" :=
  ⟨(pdf_group_ordinal_label [groupNoCheck] "lockbox.pdf" 0 groupNoCheck rfl
      rfl).1,
    (pdf_group_ordinal_label [groupNoCheck] "lockbox.pdf" 0 groupNoCheck rfl
      rfl).2.1,
    (pdf_group_ordinal_label [groupNoCheck] "lockbox.pdf" 0 groupNoCheck rfl
      rfl).2.2.1,
    (pdf_group_ordinal_label [groupNoCheck] "lockbox.pdf" 0 groupNoCheck rfl
      rfl).2.2.2 rfl⟩

/-- Claim C1 (confirmed): the orchestrator's minimum score threshold
defaults to 100, and every MatchResult in a returned ranked list has a
total score strictly above the configured threshold — a candidate at or
below it never appears. -/
theorem threshold_filtering :
    defaultScorerConfig.minScore = 100 ∧
    ∀ (cfg : ScorerConfig) (p : PaymentRecord)
      (cs : List InvoiceCandidate) (r : MatchResult),
      r ∈ reconcile cfg p cs → cfg.minScore < r.match_score := by
  refine ⟨rfl, ?_⟩
  intro cfg p cs r hr
  unfold reconcile rankMatches at hr
  have h1 := List.mem_of_mem_take hr
  rw [List.mem_mergeSort] at h1
  have h2 := (List.mem_filter.1 h1).2
  simpa using h2

/-- Witness for the threshold theorem: a candidate scoring 200 (exact
invoice number and exact amount) is a member of the ranked list, and its
score is above the default threshold of 100. -/
theorem threshold_filtering_witness :
    defaultScorerConfig.minScore <
      (scoreCandidate defaultScorerConfig paymentW candidateW).match_score :=
  threshold_filtering.2 defaultScorerConfig paymentW [candidateW] _
    (by
      unfold reconcile rankMatches
      have hms : (scoreCandidate defaultScorerConfig paymentW
          candidateW).match_score = 200 := by
        simp [scoreCandidate, totalScore, invoiceComponent, nameComponent,
          amountComponent, amountScore, relDiff, paymentW, candidateW,
          paymentName, defaultScorerConfig]
        norm_num
      have hd : dedupById [candidateW] = [candidateW] := rfl
      rw [hd]
      simp only [List.map_cons, List.map_nil, List.filter_cons,
        List.filter_nil, hms]
      norm_num [defaultScorerConfig])

/-- Bounds of the intersection count by the union count. -/
theorem interCount_le_unionCount (a b : String) :
    interCount a b ≤ unionCount a b :=
  le_trans (List.length_filter_le _ _) (Nat.le_add_right _ _)

/-- Nonnegativity of the similarity ratio. -/
theorem similarityRatio_nonneg (a b : String) : 0 ≤ similarityRatio a b :=
  div_nonneg (Nat.cast_nonneg _)
    (le_trans zero_le_one (le_max_right _ _))

/-- Upper bound of the similarity ratio by 1. -/
theorem similarityRatio_le_one (a b : String) : similarityRatio a b ≤ 1 := by
  unfold similarityRatio
  rw [div_le_one (lt_of_lt_of_le one_pos (le_max_right _ _))]
  calc (interCount a b : ℚ) ≤ (unionCount a b : ℚ) := by
        exact_mod_cast interCount_le_unionCount a b
    _ ≤ max (unionCount a b : ℚ) 1 := le_max_left _ _

/-- Bounds of the invoice-number component under the default weights. -/
theorem invoiceComponent_bounds (p : PaymentRecord) (c : InvoiceCandidate) :
    0 ≤ invoiceComponent defaultScorerConfig p c ∧
      invoiceComponent defaultScorerConfig p c ≤ 100 := by
  unfold invoiceComponent
  cases c.invoice_number with
  | none => norm_num
  | some n =>
    dsimp only
    split_ifs <;> norm_num [defaultScorerConfig]

/-- Bounds of the customer-name component under the default weights. -/
theorem nameComponent_bounds (p : PaymentRecord) (c : InvoiceCandidate) :
    0 ≤ nameComponent defaultScorerConfig p c ∧
      nameComponent defaultScorerConfig p c ≤ 80 := by
  unfold nameComponent
  cases hp : paymentName p with
  | none => norm_num
  | some a =>
    cases hc : c.customer_name with
    | none => norm_num
    | some b =>
      dsimp only
      have h0 := similarityRatio_nonneg a b
      have h1 := similarityRatio_le_one a b
      constructor
      · have : (0:ℚ) ≤ defaultScorerConfig.nameWeight := by norm_num [defaultScorerConfig]
        exact mul_nonneg this h0
      · have hw : defaultScorerConfig.nameWeight = 80 := rfl
        rw [hw]
        linarith

/-- Nonnegativity of the amount score for a nonnegative weight. -/
theorem amountScore_nonneg (cfg : ScorerConfig)
    (hw : 0 ≤ cfg.amountWeight) (pa ca : ℚ) :
    0 ≤ amountScore cfg pa ca := by
  unfold amountScore
  split_ifs with h1 h2
  · exact hw
  · exact le_max_left 0 _
  · exact le_refl 0

/-- Upper bound of the amount score by the weight, for a nonnegative
weight. -/
theorem amountScore_le_weight (cfg : ScorerConfig)
    (hw : 0 ≤ cfg.amountWeight) (pa ca : ℚ) :
    amountScore cfg pa ca ≤ cfg.amountWeight := by
  unfold amountScore
  split_ifs with h1 h2
  · exact le_refl _
  · exact max_le hw (min_le_left _ _)
  · exact hw

/-- Bounds of the amount component under the default weights. -/
theorem amountComponent_bounds (p : PaymentRecord) (c : InvoiceCandidate) :
    0 ≤ amountComponent defaultScorerConfig p c ∧
      amountComponent defaultScorerConfig p c ≤ 100 := by
  unfold amountComponent
  cases p.amount with
  | none => norm_num
  | some pa =>
    cases c.amount with
    | none => norm_num
    | some ca =>
      dsimp only
      have hw : (0:ℚ) ≤ defaultScorerConfig.amountWeight := by
        norm_num [defaultScorerConfig]
      refine ⟨amountScore_nonneg _ hw _ _, ?_⟩
      have h := amountScore_le_weight defaultScorerConfig hw pa ca
      have hw100 : defaultScorerConfig.amountWeight = 100 := rfl
      rw [hw100] at h
      exact h

/-- Antitonicity of the default amount score in the absolute amount
difference, for a fixed candidate amount. -/
theorem amountScore_anti_default (pa1 pa2 ca : ℚ)
    (h : |pa1 - ca| ≤ |pa2 - ca|) :
    amountScore defaultScorerConfig pa2 ca ≤
      amountScore defaultScorerConfig pa1 ca := by
  have hM : (0:ℚ) < max ca defaultScorerConfig.epsilon :=
    lt_of_lt_of_le (by norm_num [defaultScorerConfig]) (le_max_right _ _)
  have hd : relDiff defaultScorerConfig pa1 ca ≤
      relDiff defaultScorerConfig pa2 ca := by
    unfold relDiff
    gcongr
  unfold amountScore
  have he : defaultScorerConfig.exactTol = 1 / 1000 := rfl
  have hb : defaultScorerConfig.bandTol = 1 / 20 := rfl
  have hw : defaultScorerConfig.amountWeight = 100 := rfl
  rw [he, hb, hw]
  set d1 := relDiff defaultScorerConfig pa1 ca with hd1
  set d2 := relDiff defaultScorerConfig pa2 ca with hd2
  split_ifs with h1 h2 h3 h4 h5 h6 h7 h8 <;> try linarith
  all_goals try exact max_le (by norm_num) (min_le_left _ _)
  all_goals try exact le_max_left 0 _
  · have hdiv : (d1 - 1/1000) / (1/20 - 1/1000) ≤
        (d2 - 1/1000) / (1/20 - 1/1000) := by
      gcongr
    have hx : 100 * (1 - (d2 - 1/1000) / (1/20 - 1/1000)) ≤
        100 * (1 - (d1 - 1/1000) / (1/20 - 1/1000)) := by linarith
    exact max_le_max le_rfl (min_le_min le_rfl hx)

/-- Reduction of the three default tolerances to numerals. -/
theorem defaultTol_eq :
    defaultScorerConfig.exactTol = 1 / 1000 ∧
    defaultScorerConfig.bandTol = 1 / 20 ∧
    defaultScorerConfig.amountWeight = 100 :=
  ⟨rfl, rfl, rfl⟩

/-- Claim C2 (confirmed): on a payment and candidate that both carry an
amount, the amount component is the spec formula in the relative
difference `d = |payment.amount - candidate.amount| / max(candidate.amount,
epsilon)` — full weight 100 for `d` within the exact tolerance 0.1%,
`100 * (1 - (d - exact_tol) / (band_tol - exact_tol))` clamped to [0,100]
inside the 5% band, exactly 0 beyond — and is therefore non-increasing as
the absolute amount difference grows, all other inputs fixed. -/
theorem amount_component_formula (p : PaymentRecord)
    (c : InvoiceCandidate) (pa ca : ℚ) (hp : p.amount = some pa)
    (hc : c.amount = some ca) :
    (relDiff defaultScorerConfig pa ca ≤ 1 / 1000 →
      amountComponent defaultScorerConfig p c = 100) ∧
    (1 / 1000 < relDiff defaultScorerConfig pa ca →
      relDiff defaultScorerConfig pa ca ≤ 1 / 20 →
      amountComponent defaultScorerConfig p c =
        max 0 (min 100 (100 *
          (1 - (relDiff defaultScorerConfig pa ca - 1 / 1000) /
            (1 / 20 - 1 / 1000))))) ∧
    (1 / 20 < relDiff defaultScorerConfig pa ca →
      amountComponent defaultScorerConfig p c = 0) ∧
    (∀ (p2 : PaymentRecord) (pa2 : ℚ), p2.amount = some pa2 →
      |pa - ca| ≤ |pa2 - ca| →
      amountComponent defaultScorerConfig p2 c ≤
        amountComponent defaultScorerConfig p c) := by
  have hcomp : amountComponent defaultScorerConfig p c =
      amountScore defaultScorerConfig pa ca := by
    unfold amountComponent
    rw [hp, hc]
  refine ⟨?_, ?_, ?_, ?_⟩
  · intro h
    rw [hcomp]
    unfold amountScore
    rw [defaultTol_eq.1, defaultTol_eq.2.1, defaultTol_eq.2.2, if_pos h]
  · intro h1 h2
    rw [hcomp]
    unfold amountScore
    rw [defaultTol_eq.1, defaultTol_eq.2.1, defaultTol_eq.2.2,
      if_neg (not_le.2 h1), if_pos h2]
  · intro h
    rw [hcomp]
    unfold amountScore
    rw [defaultTol_eq.1, defaultTol_eq.2.1, defaultTol_eq.2.2,
      if_neg (by linarith), if_neg (not_le.2 h)]
  · intro p2 pa2 hp2 hle
    have hcomp2 : amountComponent defaultScorerConfig p2 c =
        amountScore defaultScorerConfig pa2 ca := by
      unfold amountComponent
      rw [hp2, hc]
    rw [hcomp, hcomp2]
    exact amountScore_anti_default pa pa2 ca hle

/-- Witness for the amount-formula theorem: for payment amount 1500
against candidate amount 1500 the relative difference is 0, the component
is the full 100, and any other payment amount scores no higher. -/
theorem amount_component_formula_witness :
    amountComponent defaultScorerConfig
      { paymentW with amount := some 1500 }
      { candidateW with amount := some 1500 } = 100 ∧
    amountComponent defaultScorerConfig
      { paymentW with amount := some 1400 }
      { candidateW with amount := some 1500 } ≤
      amountComponent defaultScorerConfig
        { paymentW with amount := some 1500 }
        { candidateW with amount := some 1500 } :=
  ⟨(amount_component_formula _ _ 1500 1500 rfl rfl).1
      (by norm_num [relDiff, defaultScorerConfig]),
    (amount_component_formula _ _ 1500 1500 rfl rfl).2.2.2
      { paymentW with amount := some 1400 } 1400 rfl (by norm_num)⟩

/-- Claim C3 (confirmed): the total match score is the sum of the three
independently computed component scores, lies in [0, 280] under the
default weights (100 + 80 + 100), and a missing payment or candidate
field makes its component exactly zero — never an error and never a
negative contribution. -/
theorem total_score_structure (p : PaymentRecord) (c : InvoiceCandidate) :
    totalScore defaultScorerConfig p c =
      invoiceComponent defaultScorerConfig p c +
        nameComponent defaultScorerConfig p c +
        amountComponent defaultScorerConfig p c ∧
    0 ≤ totalScore defaultScorerConfig p c ∧
    totalScore defaultScorerConfig p c ≤ 280 ∧
    (c.invoice_number = none →
      invoiceComponent defaultScorerConfig p c = 0) ∧
    (p.invoice_numbers = [] →
      invoiceComponent defaultScorerConfig p c = 0) ∧
    (p.payor_name = none → p.customer_name = none →
      nameComponent defaultScorerConfig p c = 0) ∧
    (c.customer_name = none →
      nameComponent defaultScorerConfig p c = 0) ∧
    (p.amount = none → amountComponent defaultScorerConfig p c = 0) ∧
    (c.amount = none → amountComponent defaultScorerConfig p c = 0) := by
  have hi := invoiceComponent_bounds p c
  have hn := nameComponent_bounds p c
  have ha := amountComponent_bounds p c
  refine ⟨rfl, ?_, ?_, ?_, ?_, ?_, ?_, ?_, ?_⟩
  · unfold totalScore
    linarith [hi.1, hn.1, ha.1]
  · unfold totalScore
    linarith [hi.2, hn.2, ha.2]
  · intro h
    simp [invoiceComponent, h]
  · intro h
    unfold invoiceComponent
    cases c.invoice_number <;> simp [h]
  · intro h1 h2
    simp [nameComponent, paymentName, h1, h2]
  · intro h
    unfold nameComponent
    cases paymentName p <;> simp [h]
  · intro h
    simp [amountComponent, h]
  · intro h
    unfold amountComponent
    cases p.amount <;> simp [h]

/-- Source pages of a merged group: the page index is appended. -/
theorem mergePage_source_pages (g : PaymentRecord)
    (p : PageExtractionRecord) (i : ℕ) :
    (mergePage g p i).source_pages = g.source_pages ++ [i] := rfl

/-- Source pages of a freshly anchored group. -/
theorem newGroup_source_pages (p : PageExtractionRecord) (i : ℕ) :
    (newGroup p i).source_pages = [i] := rfl

/-- Concatenated source pages of the grouping walk: starting from a group
holding `g.source_pages` at next index `i`, the walk emits exactly
`g.source_pages` followed by the indices `i, i+1, …` of the remaining
pages. -/
theorem groupGo_flatten :
    ∀ (ps : List PageExtractionRecord) (g : PaymentRecord) (i : ℕ),
      ((groupGo g i ps).map PaymentRecord.source_pages).flatten =
        g.source_pages ++ List.range' i ps.length
  | [], g, i => by simp [groupGo]
  | p :: ps, g, i => by
    have ih1 := groupGo_flatten ps (mergePage g p i) (i + 1)
    have ih2 := groupGo_flatten ps (newGroup p i) (i + 1)
    unfold groupGo
    cases hg : g.check_number with
    | none =>
      dsimp only
      rw [ih1, mergePage_source_pages, List.length_cons, List.range'_succ]
      simp
    | some c1 =>
      cases hp : p.check_number with
      | none =>
        dsimp only
        rw [ih1, mergePage_source_pages, List.length_cons, List.range'_succ]
        simp
      | some c2 =>
        dsimp only
        by_cases hcc : c1 = c2
        · rw [if_pos hcc, ih1, mergePage_source_pages, List.length_cons,
            List.range'_succ]
          simp
        · rw [if_neg hcc]
          rw [List.map_cons, List.flatten_cons, ih2,
            newGroup_source_pages, List.length_cons, List.range'_succ]
          simp

/-- Every group emitted by the grouping walk has source pages of the
form `range' s n` with `n > 0`, provided the current accumulator does and
its pages end right before the next index. -/
theorem groupGo_ranges :
    ∀ (ps : List PageExtractionRecord) (g : PaymentRecord) (i s n : ℕ),
      0 < n → g.source_pages = List.range' s n → s + n = i →
      ∀ h ∈ groupGo g i ps,
        ∃ s2 n2, 0 < n2 ∧ h.source_pages = List.range' s2 n2
  | [], g, i, s, n, hn, hsrc, hsum => by
    intro h hmem
    simp only [groupGo, List.mem_singleton] at hmem
    subst hmem
    exact ⟨s, n, hn, hsrc⟩
  | p :: ps, g, i, s, n, hn, hsrc, hsum => by
    intro h hmem
    have hcont : (mergePage g p i).source_pages = List.range' s (n + 1) := by
      rw [mergePage_source_pages, hsrc, List.range'_concat]
      simp [hsum]
    have hnew : (newGroup p i).source_pages = List.range' i 1 := by
      rw [newGroup_source_pages, List.range'_one]
    unfold groupGo at hmem
    cases hg : g.check_number with
    | none =>
      rw [hg] at hmem
      dsimp only at hmem
      exact groupGo_ranges ps (mergePage g p i) (i + 1) s (n + 1)
        (Nat.succ_pos n) hcont (by omega) h hmem
    | some c1 =>
      cases hp : p.check_number with
      | none =>
        rw [hg, hp] at hmem
        dsimp only at hmem
        exact groupGo_ranges ps (mergePage g p i) (i + 1) s (n + 1)
          (Nat.succ_pos n) hcont (by omega) h hmem
      | some c2 =>
        rw [hg, hp] at hmem
        dsimp only at hmem
        by_cases hcc : c1 = c2
        · rw [if_pos hcc] at hmem
          exact groupGo_ranges ps (mergePage g p i) (i + 1) s (n + 1)
            (Nat.succ_pos n) hcont (by omega) h hmem
        · rw [if_neg hcc] at hmem
          rcases List.mem_cons.1 hmem with hgq | hmem2
          · subst hgq
            exact ⟨s, n, hn, hsrc⟩
          · exact groupGo_ranges ps (newGroup p i) (i + 1) i 1 one_pos
              hnew (by omega) h hmem2

/-- Coverage of the whole document by the emitted groups. -/
theorem groupPages_flatten (pages : List PageExtractionRecord) :
    ((groupPages pages).map PaymentRecord.source_pages).flatten =
      List.range pages.length := by
  cases pages with
  | nil => simp [groupPages]
  | cons p ps =>
    unfold groupPages
    rw [groupGo_flatten, newGroup_source_pages, List.length_cons,
      List.range_eq_range', List.range'_succ]
    simp

/-- Contiguous-range shape of every emitted group's source pages. -/
theorem groupPages_ranges (pages : List PageExtractionRecord) :
    ∀ g ∈ groupPages pages,
      ∃ s n, 0 < n ∧ g.source_pages = List.range' s n := by
  cases pages with
  | nil =>
    intro g hg
    simp [groupPages] at hg
  | cons p ps =>
    intro g hg
    exact groupGo_ranges ps (newGroup p 0) 1 0 1 one_pos
      (by rw [newGroup_source_pages, List.range'_one]) rfl g hg

/-- Claim C5 (confirmed): over any input page sequence (page indices
being the 0-based positions in the document), the concatenation of
`source_pages` across all output groups is exactly `range n` — the full
input index set, no duplicates, no gaps — and each group's
`source_pages` is a nonempty contiguous range, hence strictly
increasing, so every input page belongs to exactly one group. -/
theorem coverage_invariant (pages : List PageExtractionRecord) :
    ((groupPages pages).map PaymentRecord.source_pages).flatten =
      List.range pages.length ∧
    (∀ g ∈ groupPages pages,
      ∃ s n, 0 < n ∧ g.source_pages = List.range' s n) ∧
    (∀ g ∈ groupPages pages,
      g.source_pages.Pairwise (· < ·)) := by
  refine ⟨groupPages_flatten pages, groupPages_ranges pages, ?_⟩
  intro g hg
  obtain ⟨s, n, _, hsrc⟩ := groupPages_ranges pages g hg
  rw [hsrc]
  exact List.pairwise_lt_range' s n

/-- Witness for the coverage theorem on a concrete one-page document. -/
theorem coverage_invariant_witness :
    ((groupPages [pageWith none]).map PaymentRecord.source_pages).flatten =
      List.range 1 ∧
    (newGroup (pageWith none) 0).source_pages.Pairwise (· < ·) :=
  ⟨(coverage_invariant [pageWith none]).1,
    (coverage_invariant [pageWith none]).2.2 (newGroup (pageWith none) 0)
      (by decide)⟩

/-- Witness for the total-score theorem at a concrete payment and a
candidate with every scored field absent: the total is nonnegative and
all three components vanish. -/
theorem total_score_structure_witness :
    0 ≤ totalScore defaultScorerConfig paymentW candidateEmptyW ∧
    invoiceComponent defaultScorerConfig paymentW candidateEmptyW = 0 ∧
    nameComponent defaultScorerConfig paymentW candidateEmptyW = 0 ∧
    amountComponent defaultScorerConfig paymentW candidateEmptyW = 0 :=
  ⟨(total_score_structure paymentW candidateEmptyW).2.1,
    (total_score_structure paymentW candidateEmptyW).2.2.2.1 rfl,
    (total_score_structure paymentW candidateEmptyW).2.2.2.2.2.2.1 rfl,
    (total_score_structure paymentW candidateEmptyW).2.2.2.2.2.2.2.2 rfl⟩

/-- Claim C9 counterexample: with the two distinct-key selections
`[selA, selB]`, toggling `selA` twice yields `[selB, selA]` — the entries
survive but the list order changes, so the toggle is not a strict
involution on the selection list. -/
theorem toggle_not_involution :
    selKey selA ≠ selKey selB ∧
    handleSelectInvoice selA (handleSelectInvoice selA [selA, selB]) =
      [selB, selA] ∧
    handleSelectInvoice selA (handleSelectInvoice selA [selA, selB]) ≠
      [selA, selB] := by
  decide

/-- Claim C9 (corrected): when every entry of the selection sharing the
toggled invoice's key is that invoice itself and the key occurs at most
once, the first application of `handleSelectInvoice` appends the invoice
exactly when its key is absent and removes the keyed entry exactly when
present, and applying it twice returns the selection to its original
state as a multiset — a permutation of the original list (the removed
entry is re-appended at the end), not necessarily in the original
order. -/
theorem toggle_add_remove_perm (prev : List SelectedInvoice)
    (inv : SelectedInvoice)
    (hself : ∀ e ∈ prev, selKey e = selKey inv → e = inv)
    (hcount : prev.countP (fun e => selKey e = selKey inv) ≤ 1) :
    ((∀ e ∈ prev, selKey e ≠ selKey inv) →
      handleSelectInvoice inv prev = prev ++ [inv]) ∧
    ((∃ e ∈ prev, selKey e = selKey inv) →
      handleSelectInvoice inv prev =
        prev.filter (fun e => selKey e ≠ selKey inv)) ∧
    (handleSelectInvoice inv (handleSelectInvoice inv prev)).Perm prev := by
  by_cases hA : ∃ e ∈ prev, selKey e = selKey inv
  · have hany : (prev.any fun e => selKey e = selKey inv) = true := by
      rw [List.any_eq_true]
      rcases hA with ⟨e, he, hk⟩
      exact ⟨e, he, by simp [hk]⟩
    have h1 : handleSelectInvoice inv prev =
        prev.filter (fun e => selKey e ≠ selKey inv) := by
      unfold handleSelectInvoice
      rw [if_pos hany]
    refine ⟨?_, fun _ => h1, ?_⟩
    · intro hnone
      exfalso
      rcases hA with ⟨e, he, hk⟩
      exact hnone e he hk
    · have hany2 : ((prev.filter fun e => selKey e ≠ selKey inv).any
          fun e => selKey e = selKey inv) = false := by
        rw [List.any_eq_false]
        intro x hx
        have hx2 := (List.mem_filter.1 hx).2
        simp only [ne_eq, decide_not, Bool.not_eq_eq_eq_not,
          Bool.not_true, decide_eq_false_iff_not] at hx2
        simp [hx2]
      have h2 : handleSelectInvoice inv (handleSelectInvoice inv prev) =
          (prev.filter fun e => selKey e ≠ selKey inv) ++ [inv] := by
        rw [h1]
        unfold handleSelectInvoice
        rw [if_neg (by simp [hany2])]
      rw [h2]
      have hfk : prev.filter (fun e => selKey e = selKey inv) = [inv] := by
        have hlen : (prev.filter fun e => selKey e = selKey inv).length
            = 1 := by
          rw [← List.countP_eq_length_filter]
          have hpos : 0 < prev.countP (fun e => selKey e = selKey inv) := by
            rw [List.countP_pos_iff]
            rcases hA with ⟨e, he, hk⟩
            exact ⟨e, he, by simp [hk]⟩
          omega
        obtain ⟨x, hx⟩ := List.length_eq_one.1 hlen
        have hxmem : x ∈ prev.filter (fun e => selKey e = selKey inv) := by
          rw [hx]
          exact List.mem_singleton_self x
        have hx2 := List.mem_filter.1 hxmem
        have hxinv : x = inv := hself x hx2.1 (by simpa using hx2.2)
        rw [hx, hxinv]
      have hsplit : ((prev.filter fun e => selKey e = selKey inv) ++
          (prev.filter fun e => selKey e ≠ selKey inv)).Perm prev := by
        have hcongr : (prev.filter fun e => selKey e ≠ selKey inv) =
            (prev.filter fun e =>
              !(decide (selKey e = selKey inv))) := by
          apply List.filter_congr
          intro x _
          simp [decide_not]
        rw [hcongr]
        exact List.filter_append_perm _ prev
      rw [hfk] at hsplit
      exact List.Perm.trans List.perm_append_comm hsplit
  · have hany : (prev.any fun e => selKey e = selKey inv) = false := by
      rw [List.any_eq_false]
      intro x hx
      simp only [decide_eq_true_eq]
      intro hk
      exact hA ⟨x, hx, hk⟩
    have h1 : handleSelectInvoice inv prev = prev ++ [inv] := by
      unfold handleSelectInvoice
      rw [if_neg (by simp [hany])]
    refine ⟨fun _ => h1, fun hex => absurd hex hA, ?_⟩
    rw [h1]
    have hany2 : ((prev ++ [inv]).any fun e => selKey e = selKey inv)
        = true := by
      rw [List.any_eq_true]
      exact ⟨inv, by simp, by simp⟩
    have hfil : (prev ++ [inv]).filter
        (fun e => selKey e ≠ selKey inv) = prev := by
      rw [List.filter_append]
      have hp : prev.filter (fun e => selKey e ≠ selKey inv) = prev := by
        apply List.filter_eq_self.2
        intro x hx
        rw [decide_eq_true_eq]
        exact fun hk => hA ⟨x, hx, hk⟩
      have hi : [inv].filter (fun e => selKey e ≠ selKey inv) = [] := by
        simp
      rw [hp, hi, List.append_nil]
    unfold handleSelectInvoice
    rw [if_pos hany2, hfil]

/-- Witness for the toggle theorem: toggling `selA` twice on the
two-element selection returns a permutation of it. -/
theorem toggle_add_remove_perm_witness :
    (handleSelectInvoice selA
      (handleSelectInvoice selA [selA, selB])).Perm [selA, selB] :=
  (toggle_add_remove_perm [selA, selB] selA (by decide) (by decide)).2.2

/-- Claim C7 counterexample: an extraction result carrying a
present-but-empty `payor_name` next to a non-empty `customer_name` makes
the embedded resolution (`payor_name || customer_name`, JavaScript falsy
fallback) pick the customer name, not the preferred payor field, and
diverge from the explicit precedence-list resolution modelled from the
spec. -/
theorem name_resolution_counterexample :
    ocrEmptyPayor.payor_name = some "" ∧
    ocrEmptyPayor.customer_name = some "Acme" ∧
    resolvedName ocrEmptyPayor = some "Acme" ∧
    resolvedName ocrEmptyPayor ≠ ocrEmptyPayor.payor_name ∧
    resolvedName ocrEmptyPayor ≠
      resolveByPrecedence defaultNamePrecedence ocrEmptyPayor := by
  decide

/-- Claim C7 (corrected): the displayed payor/customer name is resolved
by a hard-coded falsy fallback rather than a configured precedence list;
whenever `payor_name` is not the empty string the embedded resolution
agrees with the explicit precedence-list resolution
`[payor, customer]` modelled from the spec, and a present `payor_name`
is always the one chosen. -/
theorem name_resolution_amended (r : OcrNameFields)
    (h : r.payor_name ≠ some "") :
    resolvedName r = resolveByPrecedence defaultNamePrecedence r ∧
    (∀ s, r.payor_name = some s → resolvedName r = some s) := by
  cases hp : r.payor_name with
  | none =>
    constructor
    · cases hc : r.customer_name with
      | none =>
        simp [resolvedName, jsOrOpt, jsTruthy, hp, hc, resolveByPrecedence,
          defaultNamePrecedence, getNameField]
      | some c =>
        simp [resolvedName, jsOrOpt, jsTruthy, hp, hc, resolveByPrecedence,
          defaultNamePrecedence, getNameField]
    · intro s hs
      exact Option.noConfusion hs
  | some s =>
    have hs : s ≠ "" := by
      intro he
      apply h
      rw [hp, he]
    constructor
    · simp [resolvedName, jsOrOpt, jsTruthy, hp, hs, resolveByPrecedence,
        defaultNamePrecedence, getNameField]
    · intro t ht
      injection ht with h2
      subst h2
      simp [resolvedName, jsOrOpt, jsTruthy, hp, hs]

/-- Witness for the amended name-resolution theorem: with both names
present and non-empty, the payor name is chosen and the embedded
resolution agrees with the precedence-list resolution. -/
theorem name_resolution_amended_witness :
    resolvedName ocrBothNames =
      resolveByPrecedence defaultNamePrecedence ocrBothNames ∧
    resolvedName ocrBothNames = some "Bob" :=
  ⟨(name_resolution_amended ocrBothNames (by decide)).1,
    (name_resolution_amended ocrBothNames (by decide)).2 "Bob" rfl⟩

end AutoCash
